import Mathlib

/-!
Verification development for the hybrid supplier matcher of the rfq-processor
repository (src/app/classes/HybridSupplierMatcher.py).

The embedding models:
* `part_number_similarity` — the static method `_part_number_similarity`, built on
  Python's `difflib.SequenceMatcher.ratio()` (modelled faithfully below, with no
  junk heuristic: the autojunk heuristic of `SequenceMatcher` only activates for
  sequences of length >= 200, far beyond part-number strings);
* `pgSimilarity` — the PostgreSQL `pg_trgm` function `similarity(text, text)`
  invoked inside the SQL built by `match_suppliers` (case-folded, word-split,
  space-padded trigram sets; shared trigrams over distinct trigrams of either);
* the SQL query of `match_suppliers` — join, optional region filter, per-row
  scores with SQL NULL propagation (`Option ℚ`), hybrid score, `WHERE
  hybrid_score >= threshold`, `ORDER BY hybrid_score DESC LIMIT top_k`.  Since
  the SQL has no secondary sort key, the row order among equal scores is not
  specified; the query result is therefore modelled as a relation
  (`isQueryResult`): any permutation of the kept rows that is sorted by
  descending hybrid score, truncated to `top_k`, is a valid result.
* `match_suppliers` itself — `matchSuppliersRel`, a relation over outcomes.
  The embedding provider (`self.model.encode`) and the evaluation of the
  pgvector cosine-distance operator `<=>` are external capabilities and enter
  as parameters (`provider`, `dist`); whether the database raises during the
  query is the Boolean parameter `dbFails` (the source wraps the query in
  try/except and returns the accumulated list, which is empty, on exception).

All numeric values are modelled as rationals; the scores in the source are
IEEE floats, and every concrete input below uses values that are exact in both.
-/

/-! ## difflib.SequenceMatcher (Python standard library), as used by
`_part_number_similarity` with `isjunk=None` on short strings. -/

/-- Length of the common run of equal characters of `a` (from index `i`) and
`b` (from index `j`), stopping at window bounds `ahi`/`bhi`.  Fuel-recursive so
that the kernel can evaluate it; a fuel of at least `ahi` is always enough. -/
def runLen (a b : List Char) (ahi bhi : ℕ) : ℕ → ℕ → ℕ → ℕ
  | 0, _, _ => 0
  | fuel + 1, i, j =>
      if i < ahi ∧ i < a.length ∧ j < bhi ∧ j < b.length ∧ a.getD i ' ' = b.getD j ' '
      then runLen a b ahi bhi fuel (i + 1) (j + 1) + 1
      else 0

/-- The longest matching block of `SequenceMatcher.find_longest_match` on the
window `[alo, ahi) × [blo, bhi)` (no junk): the common substring of maximal
length; among maximal ones, the one with the smallest start in `a`, then the
smallest start in `b` (CPython scans end positions in that order and replaces
the recorded best only on strictly greater length).  Returns
`(start in a, start in b, length)`; `(alo, blo, 0)` when there is no match. -/
def findLongestMatch (a b : List Char) (alo ahi blo bhi : ℕ) : ℕ × ℕ × ℕ :=
  ((List.range' alo (ahi - alo)).flatMap fun i =>
      (List.range' blo (bhi - blo)).map fun j => (i, j, runLen a b ahi bhi ahi i j)).foldl
    (fun best c => if best.2.2 < c.2.2 then c else best) (alo, blo, 0)

/-- Total number of matched characters of `SequenceMatcher.get_matching_blocks`:
take the longest match, then recurse on the windows strictly before and
strictly after it, exactly as CPython does.  Each recursive call shrinks the
`a`-window by at least one, so a fuel of `a.length + 1` (or more) is exact. -/
def matchSum (a b : List Char) : ℕ → ℕ → ℕ → ℕ → ℕ → ℕ
  | 0, _, _, _, _ => 0
  | fuel + 1, alo, ahi, blo, bhi =>
      let m := findLongestMatch a b alo ahi blo bhi
      if m.2.2 = 0 then 0
      else
        m.2.2 +
          (if alo < m.1 ∧ blo < m.2.1 then matchSum a b fuel alo m.1 blo m.2.1 else 0) +
          (if m.1 + m.2.2 < ahi ∧ m.2.1 + m.2.2 < bhi then
            matchSum a b fuel (m.1 + m.2.2) ahi (m.2.1 + m.2.2) bhi else 0)

/-- `SequenceMatcher(None, a, b).ratio()`: `2 * M / (len a + len b)` where `M`
is the total size of the matching blocks; CPython returns `1.0` when both
sequences are empty. -/
def seqRatio (a b : String) : ℚ :=
  let la := a.data.length
  let lb := b.data.length
  if la + lb = 0 then 1
  else 2 * (matchSum a.data b.data (la + lb + 1) 0 la 0 lb : ℚ) / (la + lb)

/-- Python `str.lower()` on the character content (ASCII case folding, which
covers part numbers). -/
def strLower (s : String) : String :=
  ⟨s.data.map Char.toLower⟩

/-- `HybridSupplierMatcher._part_number_similarity` (source lines 62-76):
`if not item_pn or not db_pn: return 0.0` — Python truthiness, so `None` and
the empty string both yield `0.0` — otherwise
`SequenceMatcher(None, item_pn.lower(), db_pn.lower()).ratio()`. -/
def part_number_similarity (item_pn db_pn : Option String) : ℚ :=
  match item_pn, db_pn with
  | some ip, some dp =>
      if ip = "" ∨ dp = "" then 0
      else seqRatio (strLower ip) (strLower dp)
  | _, _ => 0

/-! ## PostgreSQL pg_trgm `similarity(text, text)`, called inside the SQL of
`match_suppliers` as `similarity(sp.part_number, %s)`. -/

/-- Splits a character list into maximal alphanumeric words (pg_trgm extracts
words as runs of alphanumeric characters; everything else separates). -/
def trgmWordsAux : List Char → List Char → List (List Char)
  | [], acc => if acc = [] then [] else [acc.reverse]
  | c :: rest, acc =>
      if c.isAlphanum then trgmWordsAux rest (c :: acc)
      else if acc = [] then trgmWordsAux rest [] else acc.reverse :: trgmWordsAux rest []

/-- The alphanumeric words of the case-folded string, as pg_trgm extracts them. -/
def trgmWords (s : String) : List (List Char) :=
  trgmWordsAux (s.data.map Char.toLower) []

/-- All consecutive 3-character windows of a character list. -/
def windows3 : List Char → List (List Char)
  | a :: b :: c :: rest => [a, b, c] :: windows3 (b :: c :: rest)
  | _ => []

/-- Trigrams of one word: pg_trgm pads each word with two spaces in front and
one space behind, then takes all 3-character windows. -/
def wordTrigrams (w : List Char) : List (List Char) :=
  windows3 ([' ', ' '] ++ w ++ [' '])

/-- The distinct trigrams of a string, over all its words (pg_trgm collects the
trigrams of every word and removes duplicates). -/
def pgTrigrams (s : String) : List (List Char) :=
  ((trgmWords s).flatMap wordTrigrams).dedup

/-- Number of trigrams shared by both strings. -/
def trigramShared (a b : String) : ℕ :=
  ((pgTrigrams a).filter fun t => decide (t ∈ pgTrigrams b)).length

/-- Number of distinct trigrams occurring in either string. -/
def trigramUnion (a b : String) : ℕ :=
  (pgTrigrams a).length + ((pgTrigrams b).filter fun t => decide (t ∉ pgTrigrams a)).length

/-- pg_trgm `similarity(a, b)`: shared trigrams over the distinct trigrams of
either string (`CALCSML`: `count / (len1 + len2 - count)`), `0` when neither
string has a trigram. -/
def pgSimilarity (a b : String) : ℚ :=
  if trigramUnion a b = 0 then 0
  else (trigramShared a b : ℚ) / (trigramUnion a b : ℚ)

/-! ## Python `round(x, 4)` (banker's rounding), applied by `match_suppliers`
to the returned score. -/

/-- Round a rational to the nearest integer, ties to even (Python `round`). -/
def roundHalfEven (q : ℚ) : ℤ :=
  let f := Int.floor q
  if q - f < 1/2 then f
  else if 1/2 < q - f then f + 1
  else if f % 2 = 0 then f else f + 1

/-- `round(q, 4)`: round to four decimal places, ties to even. -/
def pyRound4 (q : ℚ) : ℚ :=
  (roundHalfEven (q * 10000) : ℚ) / 10000

/-! ## Data model: the two joined tables and the query line item. -/

/-- A row of the `supplier_products` table; `part_number` and `origin` are
nullable columns, the embedding is the pgvector column. -/
structure SupplierProduct where
  id : ℕ
  name : String
  part_number : Option String
  origin : Option String
  supplier_id : ℕ
  embedding : List ℚ
deriving DecidableEq

/-- A row of the `suppliers` table. -/
structure Supplier where
  id : ℕ
  name : String
  email : String
deriving DecidableEq

/-- The `line_item` dict passed to `match_suppliers`: `line_item["name"]`
raises `KeyError` when absent (hence `Option`), `part_number` and
`delivery_region` are read with `.get` and may be missing. -/
structure LineItem where
  name : Option String
  part_number : Option String
  delivery_region : Option String
deriving DecidableEq

/-- One row of the `base_scores` CTE, in SQL column order:
`sp.id, sp.name, sp.part_number, sp.origin, s.name AS supplier_name, s.email,
vector_similarity, pn_score` (columns 0-7).  `pn_score` is nullable:
`similarity(NULL, pn)` is SQL NULL. -/
structure BaseRow where
  id : ℕ
  name : String
  part_number : Option String
  origin : Option String
  supplier_name : String
  email : String
  vector_similarity : ℚ
  pn_score : Option ℚ
deriving DecidableEq

/-- One row of the `ranked` CTE: the base columns plus `hybrid_score`
(column 8), which is NULL whenever `pn_score` is NULL. -/
structure RankedRow extends BaseRow where
  hybrid_score : Option ℚ
deriving DecidableEq

/-- The `product` dict built for each fetched row.  The source indexes the row
positionally: `"supplier_name": row[3]` actually reads `sp.origin` (nullable)
and `"email": row[4]` actually reads `s.name`; the model preserves those
indices. -/
structure Product where
  id : ℕ
  name : String
  part_number : Option String
  supplier_name : Option String
  email : String
deriving DecidableEq

/-- What a call of `match_suppliers` can do: return a list (the only return
path of the source) or escape with the uncaught `KeyError` of
`line_item["name"]`. -/
inductive MatchOutcome where
  | keyError : MatchOutcome
  | results : List (Product × ℚ) → MatchOutcome
deriving DecidableEq

/-! ## The SQL query of `match_suppliers` (source lines 110-153). -/

/-- `1 - (sp.embedding <=> %s::vector)` — the vector similarity as the SQL
computes it: one minus the cosine distance, with no clamping of any kind. -/
def vectorSimilarity (d : ℚ) : ℚ := 1 - d

/-- The `pn_score` column:
`CASE WHEN %s IS NOT NULL THEN similarity(sp.part_number, %s) ELSE 0.0 END`.
When the query supplies no part number the score is `0.0`; when it does and
`sp.part_number` is NULL, `similarity` is strict and the result is SQL NULL. -/
def pnScore (item_pn : Option String) (db_pn : Option String) : Option ℚ :=
  match item_pn with
  | none => some 0
  | some p => db_pn.map fun d => pgSimilarity d p

/-- One joined row of the `base_scores` CTE for a product `sp` and its
supplier `s`; `dist` stands for the database's evaluation of the pgvector
cosine-distance operator `<=>` and `v` for the query embedding parameter. -/
def mkBaseRow (dist : List ℚ → List ℚ → ℚ) (v : List ℚ) (item_pn : Option String)
    (sp : SupplierProduct) (s : Supplier) : BaseRow :=
  { id := sp.id
    name := sp.name
    part_number := sp.part_number
    origin := sp.origin
    supplier_name := s.name
    email := s.email
    vector_similarity := vectorSimilarity (dist sp.embedding v)
    pn_score := pnScore item_pn sp.part_number }

/-- `FROM supplier_products sp JOIN suppliers s ON sp.supplier_id = s.id`. -/
def joinRows (dist : List ℚ → List ℚ → ℚ) (v : List ℚ) (item_pn : Option String)
    (prods : List SupplierProduct) (sups : List Supplier) : List BaseRow :=
  prods.flatMap fun sp =>
    sups.filterMap fun s =>
      if sp.supplier_id = s.id then some (mkBaseRow dist v item_pn sp s) else none

/-- The `base_scores` CTE with the conditional region filter: the source
appends `AND sp.origin = %s` only when `delivery_region` is truthy in Python,
so `None` and the empty string disable the filter; SQL equality against a
NULL `origin` is not TRUE, so only rows with `origin = region` survive. -/
def baseScores (dist : List ℚ → List ℚ → ℚ) (v : List ℚ) (item_pn : Option String) :
    Option String → List SupplierProduct → List Supplier → List BaseRow
  | none, prods, sups => joinRows dist v item_pn prods sups
  | some r, prods, sups =>
      if r = "" then joinRows dist v item_pn prods sups
      else (joinRows dist v item_pn prods sups).filter fun row => decide (row.origin = some r)

/-- The `ranked` CTE:
`({vector_weight} * vector_similarity) + ({pn_boost_weight} * pn_score)
AS hybrid_score`; NULL `pn_score` propagates to a NULL `hybrid_score`. -/
def addHybrid (vector_weight pn_boost_weight : ℚ) (row : BaseRow) : RankedRow :=
  { toBaseRow := row
    hybrid_score := row.pn_score.map fun ps =>
      vector_weight * row.vector_similarity + pn_boost_weight * ps }

/-- All rows of the `ranked` CTE. -/
def rankedRows (dist : List ℚ → List ℚ → ℚ) (v : List ℚ) (item_pn region : Option String)
    (prods : List SupplierProduct) (sups : List Supplier)
    (vector_weight pn_boost_weight : ℚ) : List RankedRow :=
  (baseScores dist v item_pn region prods sups).map (addHybrid vector_weight pn_boost_weight)

/-- `WHERE hybrid_score >= %s`: a NULL hybrid score does not satisfy the
comparison; a score exactly equal to the threshold does. -/
def keepRow (t : ℚ) (r : RankedRow) : Bool :=
  match r.hybrid_score with
  | some h => decide (t ≤ h)
  | none => false

/-- The rows surviving the threshold filter. -/
def keptRows (dist : List ℚ → List ℚ → ℚ) (v : List ℚ) (item_pn region : Option String)
    (prods : List SupplierProduct) (sups : List Supplier)
    (vector_weight pn_boost_weight t : ℚ) : List RankedRow :=
  (rankedRows dist v item_pn region prods sups vector_weight pn_boost_weight).filter (keepRow t)

/-- Sort key of `ORDER BY hybrid_score DESC`.  Every row that reaches the sort
has passed the `WHERE` clause, so its `hybrid_score` is non-NULL and the
default is never read. -/
def scoreKey (r : RankedRow) : ℚ := r.hybrid_score.getD 0

/-- `r1` may come before `r2` under `ORDER BY hybrid_score DESC`. -/
def scoreGe (r1 r2 : RankedRow) : Prop := scoreKey r2 ≤ scoreKey r1

instance : DecidableRel scoreGe :=
  fun r1 r2 => inferInstanceAs (Decidable (scoreKey r2 ≤ scoreKey r1))

/-- `ORDER BY hybrid_score DESC LIMIT %s` as SQL specifies it: the result is
SOME ordering of the kept rows that is non-increasing in `hybrid_score`,
truncated to `top_k`.  No secondary sort key exists in the query, so the order
among rows with equal scores — and which of them survive the `LIMIT` cut — is
not determined; the modelling is therefore a relation. -/
def isQueryResult (dist : List ℚ → List ℚ → ℚ) (v : List ℚ) (item_pn region : Option String)
    (prods : List SupplierProduct) (sups : List Supplier)
    (vector_weight pn_boost_weight t : ℚ) (top_k : ℕ) (out : List RankedRow) : Prop :=
  ∃ sorted : List RankedRow,
    sorted.Perm (keptRows dist v item_pn region prods sups vector_weight pn_boost_weight t) ∧
    List.Sorted scoreGe sorted ∧
    out = sorted.take top_k

/-- The tuple appended per fetched row (source lines 159-170): the `product`
dict from `row[0]`-`row[4]` and `round(row[7], 4)` as the score.  In the final
`SELECT * FROM ranked`, column 7 is `pn_score` and column 8 is `hybrid_score`;
the source reads `row[7]` with the comment `# hybrid_score`.  Kept rows always
carry a non-NULL `pn_score`, so the default of `getD` is never read. -/
def toResult (r : RankedRow) : Product × ℚ :=
  ({ id := r.id
     name := r.name
     part_number := r.part_number
     supplier_name := r.origin
     email := r.supplier_name },
   pyRound4 (r.pn_score.getD 0))

/-- `_encode_description` (source lines 44-60): `model.encode` with the raised
exception caught and replaced by the empty list.  `provider desc = none`
models the provider raising on `desc`. -/
def encode_description (provider : String → Option (List ℚ)) (description : String) : List ℚ :=
  match provider description with
  | some v => v
  | none => []

/-- `match_suppliers` (source lines 78-175) as a relation over outcomes:
`line_item["name"]` raises `KeyError` when the key is missing; the description
is embedded (`encode_description`) with an empty vector short-circuiting to an
empty result list; a database exception (`dbFails`) is caught and the
accumulated — hence empty — result list is returned; otherwise any valid
result of the SQL query, mapped through `toResult`, is returned. -/
def matchSuppliersRel (dist : List ℚ → List ℚ → ℚ) (provider : String → Option (List ℚ))
    (dbFails : Bool) (prods : List SupplierProduct) (sups : List Supplier)
    (line_item : LineItem) (top_k : ℕ) (pn_boost_weight vector_weight similarity_threshold : ℚ)
    (o : MatchOutcome) : Prop :=
  match line_item.name with
  | none => o = MatchOutcome.keyError
  | some desc =>
      let vector := encode_description provider desc
      if vector = [] then o = MatchOutcome.results []
      else if dbFails then o = MatchOutcome.results []
      else ∃ rows,
        isQueryResult dist vector line_item.part_number line_item.delivery_region prods sups
          vector_weight pn_boost_weight similarity_threshold top_k rows ∧
        o = MatchOutcome.results (rows.map toResult)

/-! ## Concrete fixtures used by the claim theorems: a small catalog snapshot
with exact scores. -/

/-- A database snapshot in which every embedding is at cosine distance 0 from
the query vector. -/
def dist0 : List ℚ → List ℚ → ℚ := fun _ _ => 0

/-- A database snapshot in which the embedding `[1]` is at cosine distance 0
and every other embedding at distance 1/10. -/
def dist1 : List ℚ → List ℚ → ℚ := fun e _ => if e = [1] then 0 else 1/10

/-- A supplier row. -/
def sup1 : Supplier :=
  { id := 10, name := "ACME", email := "acme@example.com" }

/-- A product of supplier 10 with a part number. -/
def sp1 : SupplierProduct :=
  { id := 1, name := "Server Memory Module", part_number := some "MEM-64",
    origin := some "US", supplier_id := 10, embedding := [1] }

/-- A second product, identical except for id and embedding. -/
def sp2 : SupplierProduct :=
  { id := 2, name := "Server Memory Module", part_number := some "MEM-64",
    origin := some "US", supplier_id := 10, embedding := [2] }

/-- A product whose `part_number` column is SQL NULL. -/
def spN : SupplierProduct :=
  { id := 3, name := "Mystery Part", part_number := none,
    origin := some "US", supplier_id := 10, embedding := [1] }

/-- A line item with a description and no part number. -/
def li1 : LineItem :=
  { name := some "Server Memory Module", part_number := none, delivery_region := none }

/-- A line item whose description is the empty string. -/
def liEmpty : LineItem :=
  { name := some "", part_number := none, delivery_region := none }

/-- A line item dict without a `name` key. -/
def liNoName : LineItem :=
  { name := none, part_number := none, delivery_region := none }

/-- An embedding provider that answers every description with `[1]`. -/
def prov1 : String → Option (List ℚ) := fun _ => some [1]

/-- An embedding provider that raises on every description. -/
def provFail : String → Option (List ℚ) := fun _ => none

/-- The ranked row for `sp1` under `dist0`, query `li1`, weights 0.7/0.3:
vector similarity 1, `pn_score` 0 (no query part number), hybrid score 0.7. -/
def row1 : RankedRow :=
  { id := 1, name := "Server Memory Module", part_number := some "MEM-64",
    origin := some "US", supplier_name := "ACME", email := "acme@example.com",
    vector_similarity := 1, pn_score := some 0, hybrid_score := some (7/10) }

/-- The ranked row for `sp2` under `dist0`: identical scores, id 2. -/
def row2 : RankedRow :=
  { id := 2, name := "Server Memory Module", part_number := some "MEM-64",
    origin := some "US", supplier_name := "ACME", email := "acme@example.com",
    vector_similarity := 1, pn_score := some 0, hybrid_score := some (7/10) }

/-- The ranked row for `sp2` under `dist1`: vector similarity 9/10, hybrid
score 63/100. -/
def row2d : RankedRow :=
  { id := 2, name := "Server Memory Module", part_number := some "MEM-64",
    origin := some "US", supplier_name := "ACME", email := "acme@example.com",
    vector_similarity := 9/10, pn_score := some 0, hybrid_score := some (63/100) }

/-- The `product` dict the source builds from `row1` (note: field
`supplier_name` receives `row[3]`, the origin; field `email` receives
`row[4]`, the supplier name). -/
def prod1 : Product :=
  { id := 1, name := "Server Memory Module", part_number := some "MEM-64",
    supplier_name := some "US", email := "ACME" }

/-- The `product` dict the source builds from `row2`. -/
def prod2 : Product :=
  { id := 2, name := "Server Memory Module", part_number := some "MEM-64",
    supplier_name := some "US", email := "ACME" }

/-! ## Helper lemmas about the query model. -/

/-- Shared trigrams never exceed the distinct trigrams of either string. -/
theorem trigramShared_le_trigramUnion (a b : String) :
    trigramShared a b ≤ trigramUnion a b :=
  le_trans (List.length_filter_le _ _) (Nat.le_add_right _ _)

/-- Every row of the join carries the `pn_score` computed by the `CASE`
expression from its own `part_number` column. -/
theorem pn_score_of_mem_joinRows {dist : List ℚ → List ℚ → ℚ} {v : List ℚ}
    {item_pn : Option String} {prods : List SupplierProduct} {sups : List Supplier}
    {row : BaseRow} (h : row ∈ joinRows dist v item_pn prods sups) :
    row.pn_score = pnScore item_pn row.part_number := by
  obtain ⟨sp, hsp, hrow⟩ := List.mem_flatMap.mp h
  obtain ⟨s, hs, hmk⟩ := List.mem_filterMap.mp hrow
  by_cases hid : sp.supplier_id = s.id
  · rw [if_pos hid] at hmk
    have hEq := Option.some.inj hmk
    rw [← hEq]
    rfl
  · rw [if_neg hid] at hmk
    simp at hmk

/-- The same, through the optional region filter of `base_scores`. -/
theorem pn_score_of_mem_baseScores {dist : List ℚ → List ℚ → ℚ} {v : List ℚ}
    {item_pn region : Option String} {prods : List SupplierProduct} {sups : List Supplier}
    {row : BaseRow} (h : row ∈ baseScores dist v item_pn region prods sups) :
    row.pn_score = pnScore item_pn row.part_number := by
  cases region with
  | none => exact pn_score_of_mem_joinRows h
  | some r =>
      simp only [baseScores] at h
      by_cases hr : r = ""
      · rw [if_pos hr] at h
        exact pn_score_of_mem_joinRows h
      · rw [if_neg hr] at h
        exact pn_score_of_mem_joinRows (List.mem_filter.mp h).1

/-- Every row of a valid query result is a ranked row that passed the
`WHERE hybrid_score >= threshold` filter. -/
theorem mem_kept_of_isQueryResult {dist : List ℚ → List ℚ → ℚ} {v : List ℚ}
    {item_pn region : Option String} {prods : List SupplierProduct} {sups : List Supplier}
    {vw pw t : ℚ} {k : ℕ} {rows : List RankedRow} {r : RankedRow}
    (h : isQueryResult dist v item_pn region prods sups vw pw t k rows) (hr : r ∈ rows) :
    r ∈ rankedRows dist v item_pn region prods sups vw pw ∧ keepRow t r = true := by
  obtain ⟨sorted, hperm, hsort, htake⟩ := h
  subst htake
  have h1 : r ∈ sorted := (List.take_sublist k sorted).subset hr
  have h2 := hperm.subset h1
  simp only [keptRows] at h2
  exact List.mem_filter.mp h2

/-! ## Claim C2 -/

/-- C2, counterexample: for the identifiers "abce" (query) and "abcd"
(catalog), the `pn_score` that enters the fused score is the pg_trgm trigram
similarity 3/7, while the case-folded character-sequence similarity ratio of
`_part_number_similarity` is 3/4 — the score entering fusion is not the
sequence ratio the claim describes. -/
theorem c2_trigram_not_seq_ratio_cex :
    pnScore (some "abce") (some "abcd") = some (pgSimilarity "abcd" "abce") ∧
    pgSimilarity "abcd" "abce" = 3/7 ∧
    part_number_similarity (some "abce") (some "abcd") = 3/4 ∧
    ((3:ℚ)/7) < 3/4 := by
  refine ⟨rfl, ?_, ?_, by norm_num⟩
  · have h1 : trigramShared "abcd" "abce" = 3 := by decide
    have h2 : trigramUnion "abcd" "abce" = 7 := by decide
    rw [pgSimilarity, h1, h2]
    norm_num
  · have e1 : strLower "abce" = "abce" := by decide
    have e2 : strLower "abcd" = "abcd" := by decide
    have h : matchSum "abce".data "abcd".data 9 0 4 0 4 = 3 := by decide
    simp only [part_number_similarity]
    rw [if_neg (by simp), e1, e2]
    simp only [seqRatio]
    norm_num [h]

/-- C2, amended: when both the query and the catalog entry supply an
identifier, the lexical score entering the fused score is
`similarity(sp.part_number, item_pn)` — the pg_trgm trigram similarity, a
value in [0, 1] — not the sequence-ratio helper. -/
theorem c2_trigram_enters_fusion (p dpn : String) :
    pnScore (some p) (some dpn) = some (pgSimilarity dpn p) ∧
    0 ≤ pgSimilarity dpn p ∧ pgSimilarity dpn p ≤ 1 := by
  refine ⟨rfl, ?_, ?_⟩
  · rw [pgSimilarity]
    split
    · exact le_refl 0
    · exact div_nonneg (Nat.cast_nonneg _) (Nat.cast_nonneg _)
  · rw [pgSimilarity]
    split
    · exact zero_le_one
    · rename_i h
      rw [div_le_one (by exact_mod_cast Nat.pos_of_ne_zero h)]
      exact_mod_cast trigramShared_le_trigramUnion dpn p

/-! ## Claim C6 -/

/-- C6, counterexample: the SQL computes `1 - distance` with no clamping, so
the out-of-range drift distance 2.0001 named by the claim yields a vector
similarity of -0.0001, outside [0, 1]. -/
theorem c6_no_clamp_cex : vectorSimilarity (20001/10000) < 0 := by
  rw [vectorSimilarity]
  norm_num

/-- C6, amended: `vector_similarity` is `1 - distance` with no clamping
anywhere in the query; for a cosine distance in its mathematical range [0, 2]
the result lies in [-1, 1] (not [0, 1]), and drift outside [0, 2] escapes
even that interval. -/
theorem c6_unclamped_range (d : ℚ) (h0 : 0 ≤ d) (h2 : d ≤ 2) :
    vectorSimilarity d = 1 - d ∧ -1 ≤ vectorSimilarity d ∧ vectorSimilarity d ≤ 1 := by
  refine ⟨rfl, ?_, ?_⟩ <;> rw [vectorSimilarity] <;> linarith

/-- C6, witness for the amended theorem at distance 1/2. -/
theorem c6_unclamped_range_w :
    vectorSimilarity (1/2) = 1 - 1/2 ∧ -1 ≤ vectorSimilarity (1/2) ∧ vectorSimilarity (1/2) ≤ 1 :=
  c6_unclamped_range (1/2) (by norm_num) (by norm_num)

/-! ## Claim C10 -/

/-- C10, counterexample: the lexical scorer is not symmetric.
`SequenceMatcher` picks the first longest matching block scanning its first
argument; for "tide"/"diet" it matches only "t" (ratio 1/4), for
"diet"/"tide" it matches "d" and then "e" (ratio 1/2). -/
theorem c10_asymmetric_cex :
    part_number_similarity (some "tide") (some "diet") = 1/4 ∧
    part_number_similarity (some "diet") (some "tide") = 1/2 ∧
    ((1:ℚ)/4) < 1/2 := by
  refine ⟨?_, ?_, by norm_num⟩
  · have e1 : strLower "tide" = "tide" := by decide
    have e2 : strLower "diet" = "diet" := by decide
    have h : matchSum "tide".data "diet".data 9 0 4 0 4 = 1 := by decide
    simp only [part_number_similarity]
    rw [if_neg (by simp), e1, e2]
    simp only [seqRatio]
    norm_num [h]
  · have e1 : strLower "diet" = "diet" := by decide
    have e2 : strLower "tide" = "tide" := by decide
    have h : matchSum "diet".data "tide".data 9 0 4 0 4 = 2 := by decide
    simp only [part_number_similarity]
    rw [if_neg (by simp), e1, e2]
    simp only [seqRatio]
    norm_num [h]

/-- C10, amended: the scorer returns exactly 0.0, without raising, whenever
either argument is absent — where Python truthiness makes both `None` and the
empty string count as absent — but it is not symmetric on present pairs. -/
theorem c10_absent_zero (a b : Option String)
    (h : a = none ∨ a = some "" ∨ b = none ∨ b = some "") :
    part_number_similarity a b = 0 := by
  rcases h with h | h | h | h
  · subst h; rfl
  · subst h
    cases b with
    | none => rfl
    | some s => simp [part_number_similarity]
  · subst h
    cases a with
    | none => rfl
    | some s => rfl
  · subst h
    cases a with
    | none => rfl
    | some s => simp [part_number_similarity]

/-- C10, witness for the amended theorem: an absent first argument. -/
theorem c10_absent_zero_w : part_number_similarity none (some "X") = 0 :=
  c10_absent_zero none (some "X") (Or.inl rfl)

/-! ## Evaluation of the fixtures. -/

/-- Under `dist0` and query `li1`, the one row for `sp1` survives the
threshold with hybrid score 0.7. -/
theorem kept_c1 :
    keptRows dist0 [1] none none [sp1] [sup1] (7/10) (3/10) (6/10) = [row1] := by
  norm_num [keptRows, rankedRows, baseScores, joinRows, mkBaseRow, addHybrid, keepRow,
    pnScore, vectorSimilarity, dist0, sp1, sup1, row1, List.filter_cons, List.filterMap_cons,
    List.filterMap_nil, List.map_cons, List.map_nil, List.filter_append]

/-- Under `dist0`, both tied rows survive the threshold. -/
theorem kept_c5 :
    keptRows dist0 [1] none none [sp1, sp2] [sup1] (7/10) (3/10) (6/10) = [row1, row2] := by
  norm_num [keptRows, rankedRows, baseScores, joinRows, mkBaseRow, addHybrid, keepRow,
    pnScore, vectorSimilarity, dist0, sp1, sp2, sup1, row1, row2, List.filter_cons,
    List.filterMap_cons, List.filterMap_nil, List.map_cons, List.map_nil, List.filter_append]

/-- Under `dist1`, both rows survive the threshold with distinct scores. -/
theorem kept_c9 :
    keptRows dist1 [1] none none [sp1, sp2] [sup1] (7/10) (3/10) (6/10) = [row1, row2d] := by
  norm_num [keptRows, rankedRows, baseScores, joinRows, mkBaseRow, addHybrid, keepRow,
    pnScore, vectorSimilarity, dist1, sp1, sp2, sup1, row1, row2d, List.filter_cons,
    List.filterMap_cons, List.filterMap_nil, List.map_cons, List.map_nil, List.filter_append]

/-- The query over an empty catalog has the empty result. -/
theorem isQueryResult_nil :
    isQueryResult dist0 [1] none none [] [] (7/10) (3/10) (6/10) 5 [] := by
  refine ⟨[], ?_, ?_, rfl⟩
  · simp [keptRows, rankedRows, baseScores, joinRows]
  · simp

/-! ## Claim C1 -/

/-- C1: on a catalog row whose hybrid score is 0.7, the score carried by the
returned pair is 0.0 — the source reads `row[7]`, which is `pn_score`, not
`row[8]` (`hybrid_score`, the quantity used to order and threshold), despite
its own `# hybrid_score` comment. -/
theorem c1_returned_score_is_pn_score :
    matchSuppliersRel dist0 prov1 false [sp1] [sup1] li1 5 (3/10) (7/10) (6/10)
      (MatchOutcome.results [(prod1, 0)]) ∧
    (addHybrid (7/10) (3/10) (mkBaseRow dist0 [1] none sp1 sup1)).hybrid_score = some (7/10) ∧
    ((0:ℚ)) < 7/10 := by
  refine ⟨?_, ?_, by norm_num⟩
  · show ∃ rows, isQueryResult dist0 [1] none none [sp1] [sup1] (7/10) (3/10) (6/10) 5 rows ∧
      MatchOutcome.results [(prod1, 0)] = MatchOutcome.results (rows.map toResult)
    refine ⟨[row1], ⟨[row1], ?_, ?_, rfl⟩, ?_⟩
    · rw [kept_c1]
    · simp
    · norm_num [toResult, row1, prod1, pyRound4, roundHalfEven]
  · norm_num [addHybrid, mkBaseRow, pnScore, vectorSimilarity, dist0, sp1]

/-! ## Claim C3 -/

/-- C3, counterexample: when the query raises (`dbFails`), the call returns
the empty list — the very outcome of a legitimate empty catalog — so the
failure is not distinguishable by the caller. -/
theorem c3_db_failure_indistinguishable_cex :
    matchSuppliersRel dist0 prov1 true [sp1] [sup1] li1 5 (3/10) (7/10) (6/10)
      (MatchOutcome.results []) ∧
    matchSuppliersRel dist0 prov1 false [] [] li1 5 (3/10) (7/10) (6/10)
      (MatchOutcome.results []) := by
  constructor
  · exact rfl
  · exact ⟨[], isQueryResult_nil, rfl⟩

/-- C3, amended: when the catalog store is unreachable or the query fails,
the source catches the exception and returns the accumulated — empty — list;
no error reaches the caller. -/
theorem c3_db_failure_returns_empty (dist : List ℚ → List ℚ → ℚ)
    (provider : String → Option (List ℚ)) (prods : List SupplierProduct)
    (sups : List Supplier) (li : LineItem) (k : ℕ) (pw vw t : ℚ) (o : MatchOutcome)
    (desc : String) (v : List ℚ) (hname : li.name = some desc)
    (hok : provider desc = some v) (hne : v ≠ []) :
    matchSuppliersRel dist provider true prods sups li k pw vw t o ↔
      o = MatchOutcome.results [] := by
  unfold matchSuppliersRel
  rw [hname]
  simp [encode_description, hok, hne]

/-- C3, witness for the amended theorem. -/
theorem c3_db_failure_returns_empty_w :
    matchSuppliersRel dist0 prov1 true [sp1] [sup1] li1 5 (3/10) (7/10) (6/10)
      (MatchOutcome.results []) ↔ MatchOutcome.results [] = MatchOutcome.results [] :=
  c3_db_failure_returns_empty dist0 prov1 [sp1] [sup1] li1 5 (3/10) (7/10) (6/10)
    (MatchOutcome.results []) "Server Memory Module" [1] rfl rfl (by simp)

/-! ## Claim C4 -/

/-- C4, counterexample: when the embedding provider raises, the call returns
the empty list — the very outcome of a legitimate empty catalog — so the
failure is not distinguishable by the caller. -/
theorem c4_embed_failure_indistinguishable_cex :
    matchSuppliersRel dist0 provFail false [sp1] [sup1] li1 5 (3/10) (7/10) (6/10)
      (MatchOutcome.results []) ∧
    matchSuppliersRel dist0 prov1 false [] [] li1 5 (3/10) (7/10) (6/10)
      (MatchOutcome.results []) := by
  constructor
  · exact rfl
  · exact ⟨[], isQueryResult_nil, rfl⟩

/-- C4, amended: when the embedding provider fails, `_encode_description`
catches the exception and returns `[]`, and `match_suppliers` then returns
the empty list; no error reaches the caller and no partial result is
produced. -/
theorem c4_embed_failure_returns_empty (dist : List ℚ → List ℚ → ℚ)
    (provider : String → Option (List ℚ)) (dbF : Bool) (prods : List SupplierProduct)
    (sups : List Supplier) (li : LineItem) (k : ℕ) (pw vw t : ℚ) (o : MatchOutcome)
    (desc : String) (hname : li.name = some desc) (hfail : provider desc = none) :
    matchSuppliersRel dist provider dbF prods sups li k pw vw t o ↔
      o = MatchOutcome.results [] := by
  unfold matchSuppliersRel
  rw [hname]
  simp [encode_description, hfail]

/-- C4, witness for the amended theorem. -/
theorem c4_embed_failure_returns_empty_w :
    matchSuppliersRel dist0 provFail false [sp1] [sup1] li1 5 (3/10) (7/10) (6/10)
      (MatchOutcome.results []) ↔ MatchOutcome.results [] = MatchOutcome.results [] :=
  c4_embed_failure_returns_empty dist0 provFail false [sp1] [sup1] li1 5 (3/10) (7/10) (6/10)
    (MatchOutcome.results []) "Server Memory Module" rfl rfl

/-! ## Claim C5 -/

/-- C5, counterexample: two candidates with exactly equal hybrid scores and
ids 1 and 2 can be returned in the order id 2, id 1 — a valid execution of
`ORDER BY hybrid_score DESC` without a secondary key — so ties are not
ordered ascending by id. -/
theorem c5_tie_order_cex :
    matchSuppliersRel dist0 prov1 false [sp1, sp2] [sup1] li1 5 (3/10) (7/10) (6/10)
      (MatchOutcome.results [(prod2, 0), (prod1, 0)]) ∧
    row1.hybrid_score = row2.hybrid_score ∧ row1.id = 1 ∧ row2.id = 2 := by
  refine ⟨?_, rfl, rfl, rfl⟩
  show ∃ rows, isQueryResult dist0 [1] none none [sp1, sp2] [sup1] (7/10) (3/10) (6/10) 5 rows ∧
      MatchOutcome.results [(prod2, 0), (prod1, 0)] = MatchOutcome.results (rows.map toResult)
  refine ⟨[row2, row1], ⟨[row2, row1], ?_, ?_, rfl⟩, ?_⟩
  · rw [kept_c5]
    exact List.Perm.swap row1 row2 []
  · norm_num [List.sorted_cons, scoreGe, scoreKey, row1, row2]
  · norm_num [toResult, row1, row2, prod1, prod2, pyRound4, roundHalfEven]

/-- C5, amended: every valid result is sorted by hybrid score descending, but
the relative order of candidates with exactly equal hybrid scores is not
constrained: the query has no secondary sort key, so tie order is not
deterministic. -/
theorem c5_sorted_desc (dist : List ℚ → List ℚ → ℚ) (v : List ℚ)
    (item_pn region : Option String) (prods : List SupplierProduct) (sups : List Supplier)
    (vw pw t : ℚ) (k : ℕ) (rows : List RankedRow)
    (h : isQueryResult dist v item_pn region prods sups vw pw t k rows) :
    List.Sorted scoreGe rows := by
  obtain ⟨sorted, hperm, hsort, htake⟩ := h
  rw [htake]
  exact hsort.sublist (List.take_sublist k sorted)

/-- C5, witness for the amended theorem. -/
theorem c5_sorted_desc_w : List.Sorted scoreGe [] :=
  c5_sorted_desc dist0 [1] none none [] [] (7/10) (3/10) (6/10) 5 [] isQueryResult_nil

/-! ## Claim C7 -/

/-- C7, counterexample: a query item with an empty description is not
rejected: the description is embedded, retrieval runs, and the call returns a
non-empty result list — no `InvalidQuery` failure happens before embedding or
retrieval (no such error exists in the source). -/
theorem c7_no_validation_cex :
    matchSuppliersRel dist0 prov1 false [sp1] [sup1] liEmpty 5 (3/10) (7/10) (6/10)
      (MatchOutcome.results [(prod1, 0)]) := by
  show ∃ rows, isQueryResult dist0 [1] none none [sp1] [sup1] (7/10) (3/10) (6/10) 5 rows ∧
      MatchOutcome.results [(prod1, 0)] = MatchOutcome.results (rows.map toResult)
  refine ⟨[row1], ⟨[row1], ?_, ?_, rfl⟩, ?_⟩
  · rw [kept_c1]
  · simp
  · norm_num [toResult, row1, prod1, pyRound4, roundHalfEven]

/-- C7, amended: the engine performs no description validation: a missing
`name` key escapes with Python's `KeyError` (not an `InvalidQuery` error),
and an empty description is passed on to the embedding provider. -/
theorem c7_missing_name_keyerror (dist : List ℚ → List ℚ → ℚ)
    (provider : String → Option (List ℚ)) (dbF : Bool) (prods : List SupplierProduct)
    (sups : List Supplier) (li : LineItem) (k : ℕ) (pw vw t : ℚ) (o : MatchOutcome)
    (h : li.name = none) :
    matchSuppliersRel dist provider dbF prods sups li k pw vw t o ↔
      o = MatchOutcome.keyError := by
  unfold matchSuppliersRel
  rw [h]

/-- C7, witness for the amended theorem. -/
theorem c7_missing_name_keyerror_w :
    matchSuppliersRel dist0 prov1 false [sp1] [sup1] liNoName 5 (3/10) (7/10) (6/10)
      MatchOutcome.keyError ↔ MatchOutcome.keyError = MatchOutcome.keyError :=
  c7_missing_name_keyerror dist0 prov1 false [sp1] [sup1] liNoName 5 (3/10) (7/10) (6/10)
    MatchOutcome.keyError rfl

/-! ## Claim C8 -/

/-- C8: when the query supplies a part number, a catalog row whose
`part_number` is SQL NULL gets a NULL `pn_score`, hence a NULL
`hybrid_score`, fails the threshold comparison whatever its vector
similarity, and therefore never appears in a valid result: every returned
row carries a non-NULL `part_number`. -/
theorem c8_null_pn_excluded (dist : List ℚ → List ℚ → ℚ) (v : List ℚ) (p : String)
    (region : Option String) (prods : List SupplierProduct) (sups : List Supplier)
    (vw pw t : ℚ) (k : ℕ) (rows : List RankedRow) :
    (∀ row, row ∈ baseScores dist v (some p) region prods sups → row.part_number = none →
        (addHybrid vw pw row).hybrid_score = none ∧
        keepRow t (addHybrid vw pw row) = false) ∧
    (isQueryResult dist v (some p) region prods sups vw pw t k rows →
        ∀ r, r ∈ rows → ∃ s, r.part_number = some s) := by
  constructor
  · intro row hmem hnone
    have hpn : row.pn_score = pnScore (some p) row.part_number :=
      pn_score_of_mem_baseScores hmem
    rw [hnone] at hpn
    have hps : row.pn_score = none := by simpa [pnScore] using hpn
    exact ⟨by simp [addHybrid, hps], by simp [keepRow, addHybrid, hps]⟩
  · intro h r hr
    obtain ⟨hranked, hkeep⟩ := mem_kept_of_isQueryResult h hr
    simp only [rankedRows] at hranked
    obtain ⟨row, hrow, hEq⟩ := List.mem_map.mp hranked
    have hpn : row.pn_score = pnScore (some p) row.part_number :=
      pn_score_of_mem_baseScores hrow
    cases hpf : row.part_number with
    | some s =>
        refine ⟨s, ?_⟩
        rw [← hEq]
        exact hpf
    | none =>
        rw [hpf] at hpn
        have hps : row.pn_score = none := by simpa [pnScore] using hpn
        rw [← hEq] at hkeep
        simp [keepRow, addHybrid, hps] at hkeep

/-- A joined base row for the NULL-part-number product. -/
def rowN : BaseRow := mkBaseRow dist0 [1] (some "X") spN sup1

/-- C8, witness: the concrete NULL-part-number row has a NULL hybrid score
and fails the threshold. -/
theorem c8_null_pn_excluded_w :
    (addHybrid (7/10) (3/10) rowN).hybrid_score = none ∧
    keepRow (6/10) (addHybrid (7/10) (3/10) rowN) = false :=
  (c8_null_pn_excluded dist0 [1] "X" none [spN] [sup1] (7/10) (3/10) (6/10) 5 []).1 rowN
    (by simp [baseScores, joinRows, rowN, spN, sup1]) rfl

/-! ## Claim C9 -/

/-- C9, counterexample: with `top_k = 1` and two candidates above the
threshold, the valid result contains only the best row — the other candidate
meets the threshold yet does not appear, so "appears in the output if and
only if its hybrid score reaches the threshold" fails in the `if`
direction. -/
theorem c9_threshold_iff_cex :
    isQueryResult dist1 [1] none none [sp1, sp2] [sup1] (7/10) (3/10) (6/10) 1 [row1] ∧
    keepRow (6/10) row2d = true ∧
    [row1].filter (fun r => decide (r.id = row2d.id)) = [] ∧
    row2d.hybrid_score = some (63/100) := by
  refine ⟨⟨[row1, row2d], ?_, ?_, rfl⟩, ?_, ?_, rfl⟩
  · rw [kept_c9]
  · norm_num [List.sorted_cons, scoreGe, scoreKey, row1, row2d]
  · norm_num [keepRow, row2d]
  · simp [row1, row2d]

/-- C9, amended: every row of a valid result meets the threshold (`only if`
holds), a score exactly equal to the threshold is kept, and when no candidate
clears the threshold the result is the empty list, not an error. -/
theorem c9_threshold_filter (dist : List ℚ → List ℚ → ℚ) (v : List ℚ)
    (item_pn region : Option String) (prods : List SupplierProduct) (sups : List Supplier)
    (vw pw t : ℚ) (k : ℕ) (rows : List RankedRow)
    (h : isQueryResult dist v item_pn region prods sups vw pw t k rows) :
    (∀ r, r ∈ rows → keepRow t r = true) ∧
    (keptRows dist v item_pn region prods sups vw pw t = [] → rows = []) ∧
    (∀ r : RankedRow, r.hybrid_score = some t → keepRow t r = true) := by
  refine ⟨fun r hr => (mem_kept_of_isQueryResult h hr).2, ?_, ?_⟩
  · intro hnil
    obtain ⟨sorted, hperm, hsort, htake⟩ := h
    rw [hnil] at hperm
    rw [htake, hperm.eq_nil, List.take_nil]
  · intro r hr
    simp [keepRow, hr]

/-- A ranked row whose hybrid score equals the threshold exactly. -/
def rowT : RankedRow :=
  { id := 4, name := "Edge", part_number := some "E-1", origin := some "US",
    supplier_name := "ACME", email := "acme@example.com",
    vector_similarity := 6/7, pn_score := some 0, hybrid_score := some (6/10) }

/-- C9, witness: a row scoring exactly the threshold is kept. -/
theorem c9_threshold_filter_w : keepRow (6/10) rowT = true :=
  (c9_threshold_filter dist0 [1] none none [] [] (7/10) (3/10) (6/10) 5 []
    isQueryResult_nil).2.2 rowT rfl
